import Mathlib

/-!
Shallow embedding of the InvoiceFast billing backend (Go) for checking its
natural-language specification.  Monetary `float64` values are modelled as
rationals; Go's `math.Round(x*100)/100` (round half away from zero to two
decimal places) is modelled exactly.  Database rows live in a `Store` record
of lists; GORM calls become pure list operations.  Randomly generated ids
(`uuid.New`) are supplied as explicit `fresh` arguments since their values
never influence the money logic.  Log output and audit-log rows are elided.
-/

namespace InvoiceFast

/-- Go `math.Round(x*100)/100`: round half away from zero to 2 decimals. -/
def round2 (x : ℚ) : ℚ :=
  if 0 ≤ x then ((⌊x * 100 + 1/2⌋ : ℤ) : ℚ) / 100
  else -(((⌊(-x) * 100 + 1/2⌋ : ℤ) : ℚ) / 100)

/-- `x` is a whole number of cents (a 2-decimal-place amount). -/
def isCents (x : ℚ) : Prop := ∃ n : ℤ, x = (n : ℚ) / 100

theorem isCents_add {x y : ℚ} (hx : isCents x) (hy : isCents y) :
    isCents (x + y) := by
  rcases hx with ⟨n, rfl⟩
  rcases hy with ⟨m, rfl⟩
  exact ⟨n + m, by push_cast; ring⟩

theorem round2_of_isCents {x : ℚ} (h : isCents x) : round2 x = x := by
  rcases h with ⟨n, rfl⟩
  have h100 : ((n : ℚ) / 100) * 100 = (n : ℚ) := by field_simp
  have hhalf : ⌊(1/2 : ℚ)⌋ = 0 := by norm_num
  unfold round2
  split
  · rw [h100, add_comm, Int.floor_add_int, hhalf]
    push_cast
    ring
  · have hneg : -((n : ℚ) / 100) * 100 = ((-n : ℤ) : ℚ) := by push_cast; field_simp
    rw [hneg, add_comm, Int.floor_add_int, hhalf]
    push_cast
    ring

theorem round2_nonneg {x : ℚ} (h : 0 ≤ x) : 0 ≤ round2 x := by
  unfold round2
  rw [if_pos h]
  have : (0 : ℤ) ≤ ⌊x * 100 + 1/2⌋ := by
    apply Int.le_floor.2
    push_cast
    nlinarith
  positivity

theorem round2_nonpos {x : ℚ} (h : x < 0) : round2 x ≤ 0 := by
  unfold round2
  rw [if_neg (by linarith)]
  have : (0 : ℤ) ≤ ⌊(-x) * 100 + 1/2⌋ := by
    apply Int.le_floor.2
    push_cast
    nlinarith
  have : (0 : ℚ) ≤ ((⌊(-x) * 100 + 1/2⌋ : ℤ) : ℚ) / 100 := by positivity
  linarith

theorem le_round2_of_le {t x : ℚ} (ht : isCents t) (h0 : 0 ≤ t) (hle : t ≤ x) :
    t ≤ round2 x := by
  rcases ht with ⟨n, rfl⟩
  have hx : 0 ≤ x := le_trans h0 hle
  unfold round2
  rw [if_pos hx]
  have hn : (n : ℚ) ≤ x * 100 := by
    have := mul_le_mul_of_nonneg_right hle (by norm_num : (0:ℚ) ≤ 100)
    calc (n : ℚ) = (n : ℚ) / 100 * 100 := by field_simp
    _ ≤ x * 100 := this
  have : n ≤ ⌊x * 100 + 1/2⌋ := Int.le_floor.2 (by linarith)
  have : (n : ℚ) ≤ ((⌊x * 100 + 1/2⌋ : ℤ) : ℚ) := by exact_mod_cast this
  linarith [div_le_div_of_nonneg_right (c := (100:ℚ)) ‹(n:ℚ) ≤ _› (by norm_num)]

theorem round2_clamp (x : ℚ) :
    round2 (if x < 0 then 0 else x) = max 0 (round2 x) := by
  split
  · have h0 : round2 (0 : ℚ) = 0 := round2_of_isCents ⟨0, by norm_num⟩
    rw [h0, eq_comm, max_eq_left_iff]
    exact round2_nonpos (by assumption)
  · rw [eq_comm, max_eq_right_iff]
    exact round2_nonneg (by linarith [not_lt.1 ‹¬ x < 0›])

/-! ## Data model (internal/models/models.go) -/

/-- Invoice statuses (`InvoiceStatus` constants in models.go).
`partlyPaid` models the source's "partially_paid". -/
inductive InvoiceStatus where
  | draft
  | sent
  | viewed
  | partlyPaid
  | paid
  | overdue
  | cancelled
deriving DecidableEq

/-- A line item of an invoice (`InvoiceItem`). -/
structure InvoiceItem where
  id : String
  invoiceID : String
  description : String
  quantity : ℚ
  unitPrice : ℚ
  unit : String
  total : ℚ
  sortOrder : ℕ
deriving DecidableEq

/-- An invoice (`Invoice`).  Times are rationals counted in days;
`sql.NullTime` timestamp fields are modelled by their `Valid` flag. -/
structure Invoice where
  id : String
  userID : String
  clientID : String
  invoiceNumber : String
  reference : String
  currency : String
  subtotal : ℚ
  taxRate : ℚ
  taxAmount : ℚ
  discount : ℚ
  total : ℚ
  paidAmount : ℚ
  status : InvoiceStatus
  dueDate : ℚ
  sentAt : Bool
  viewedAt : Bool
  paidAt : Bool
  notes : String
  terms : String
  magicToken : String
  items : List InvoiceItem
deriving DecidableEq

/-- A payment row (`Payment`); method/status kept as strings. -/
structure Payment where
  id : String
  userID : String
  invoiceID : String
  amount : ℚ
  currency : String
  method : String
  status : String
  reference : String
  completedAt : Bool
deriving DecidableEq

/-- A client (`Client`), the fields the invoice logic touches. -/
structure Client where
  id : String
  userID : String
  name : String
  email : String
  phone : String
deriving DecidableEq

/-- The relational store: the tables the invoice/payment logic touches. -/
structure Store where
  clients : List Client
  invoices : List Invoice
  payments : List Payment
deriving DecidableEq

/-- Model of Go `strings.TrimSpace` on the common whitespace characters. -/
def isSpaceChar (c : Char) : Bool :=
  c = ' ' || c = '\t' || c = '\n' || c = '\r'

/-- Model of Go `strings.TrimSpace`. -/
def trimSpace (s : String) : String :=
  ⟨((s.data.dropWhile isSpaceChar).reverse.dropWhile isSpaceChar).reverse⟩

/-- Model of Go `strings.ToUpper` (ASCII letters, as the currency codes use). -/
def toUpperStr (s : String) : String :=
  ⟨s.data.map Char.toUpper⟩

/-- Errors surfaced by the invoice service (invoice.go `var (...)` block). -/
inductive InvoiceError where
  | notFoundInvoice
  | cannotEditPaid
  | emptyItems
  | invalidQuantity
  | validationMsg (msg : String)
  | alreadySent
  | cannotSendCancelled
deriving DecidableEq

/-! ## Store primitives (GORM calls of invoice.go) -/

/-- `GetInvoiceByID` (invoice.go:178): point lookup by id under the owning
user's scope; empty ids are rejected up front. -/
def getInvoiceByID (st : Store) (invoiceID userID : String) : Option Invoice :=
  if trimSpace invoiceID = "" || trimSpace userID = "" then none
  else st.invoices.find? (fun i => i.id == invoiceID && i.userID == userID)

/-- `db.Save(&invoice)`: full-row update of the invoice with that id. -/
def saveInvoice (st : Store) (inv : Invoice) : Store :=
  { st with invoices := st.invoices.map (fun i => if i.id == inv.id then inv else i) }

/-! ## Payment Ledger (invoice.go `RecordPayment`, lines 463-505) -/

/-- The invoice-update step of `RecordPayment` (invoice.go:476-488):
accumulate the rounded paid amount and derive the new status. -/
def applyPaymentToInvoice (inv : Invoice) (amount : ℚ) : Invoice :=
  let paid := round2 (inv.paidAmount + amount)
  if inv.total ≤ paid then
    { inv with paidAmount := inv.total, status := InvoiceStatus.paid, paidAt := true }
  else if 0 < paid then
    { inv with paidAmount := paid, status := InvoiceStatus.partlyPaid }
  else
    { inv with paidAmount := paid }

/-- A sequence of `RecordPayment` calls against one invoice. -/
def payAll (inv : Invoice) (amts : List ℚ) : Invoice :=
  amts.foldl applyPaymentToInvoice inv

/-- `RecordPayment` (invoice.go:463-505): load the invoice under the payer's
user scope, append the payment row unconditionally, update the invoice.
The audit-log insert is elided. -/
def recordPayment (st : Store) (invoiceID : String) (payment : Payment) :
    Except InvoiceError Store :=
  match getInvoiceByID st invoiceID payment.userID with
  | none => .error .notFoundInvoice
  | some inv =>
    let payment := { payment with invoiceID := invoiceID }
    let st1 := { st with payments := st.payments ++ [payment] }
    .ok (saveInvoice st1 (applyPaymentToInvoice inv payment.amount))

/-! ## Money Model (invoice.go `recalculateInvoiceTotals` and `CreateInvoice`) -/

/-- `recalculateInvoiceTotals` (invoice.go:409-422).  Note that the total is
computed from the already-rounded tax amount. -/
def recalculateInvoiceTotals (inv : Invoice) : Invoice :=
  let subtotal := inv.items.foldl (fun s it => s + it.total) 0
  let taxAmount := round2 (subtotal * (inv.taxRate / 100))
  let total0 := round2 (subtotal + taxAmount - inv.discount)
  let total := if total0 < 0 then 0 else total0
  { inv with subtotal := round2 subtotal, taxAmount := taxAmount, total := total }

/-- The valid currency set (invoice.go:31-34). -/
def validCurrencies : List String :=
  ["KES", "USD", "EUR", "GBP", "TZS", "UGX", "NGN"]

/-- One requested line item (`InvoiceItemRequest`). -/
structure InvoiceItemRequest where
  description : String
  quantity : ℚ
  unitPrice : ℚ
  unit : String
deriving DecidableEq

/-- `CreateInvoiceRequest`; `dueDate = none` models Go's zero `time.Time`. -/
structure CreateInvoiceRequest where
  reference : String
  currency : String
  taxRate : ℚ
  discount : ℚ
  dueDate : Option ℚ
  notes : String
  terms : String
  items : List InvoiceItemRequest
deriving DecidableEq

/-- `validateCreateRequest` (invoice.go:161-175).  `now` is the call time in
days; `AddDate(0,0,-1)` is `now - 1`.  Returns the first failure, if any. -/
def validateCreateRequest (userID clientID : String) (req : CreateInvoiceRequest)
    (now : ℚ) : Option InvoiceError :=
  if trimSpace userID = "" then some (.validationMsg "user ID is required")
  else if trimSpace clientID = "" then some (.validationMsg "client ID is required")
  else
    match req.dueDate with
    | none => some (.validationMsg "due date is required")
    | some d =>
      if d < now - 1 then some (.validationMsg "due date cannot be in the past")
      else none

/-- The item loop of `CreateInvoice` (invoice.go:67-90): negative quantity is
rejected, negative unit price is coerced to 0, empty description defaults. -/
def buildCreateItems (fresh : ℕ → String) :
    ℕ → List InvoiceItemRequest → Except InvoiceError (List InvoiceItem)
  | _, [] => .ok []
  | i, item :: rest =>
    if item.quantity < 0 then .error .invalidQuantity
    else
      let price := if item.unitPrice < 0 then 0 else item.unitPrice
      let desc := if trimSpace item.description = "" then "Item"
                  else trimSpace item.description
      let line : InvoiceItem :=
        { id := fresh i, invoiceID := "", description := desc,
          quantity := item.quantity, unitPrice := price, unit := item.unit,
          total := item.quantity * price, sortOrder := i }
      match buildCreateItems fresh (i + 1) rest with
      | .error e => .error e
      | .ok ls => .ok (line :: ls)

/-- The subtotal accumulated by the `CreateInvoice` item loop. -/
def createSubtotal (reqs : List InvoiceItemRequest) : ℚ :=
  (reqs.map (fun it =>
    it.quantity * (if it.unitPrice < 0 then 0 else it.unitPrice))).sum

/-- `CreateInvoice` (invoice.go:45-158): validate, look up the client in the
caller's scope, process items, clamp tax rate and discount, compute the total
(clamped to be non-negative), round the stored money fields, and insert the
invoice with its items.  `fresh` supplies generated ids: `fresh i` for item
`i`, and `fresh 1000`/`1001`/`1002` for the invoice id, number and token. -/
def createInvoice (st : Store) (userID clientID : String)
    (req : CreateInvoiceRequest) (now : ℚ) (fresh : ℕ → String) :
    Except InvoiceError (Store × Invoice) :=
  match validateCreateRequest userID clientID req now with
  | some e => .error e
  | none =>
    match st.clients.find? (fun c => c.id == clientID && c.userID == userID) with
    | none => .error .notFoundInvoice
    | some _ =>
      if req.items.isEmpty then .error .emptyItems
      else
        match buildCreateItems fresh 0 req.items with
        | .error e => .error e
        | .ok items =>
          let currency0 := toUpperStr req.currency
          let currency :=
            if currency0 = "" then "KES"
            else if validCurrencies.contains currency0 then currency0
            else "KES"
          let subtotal := items.foldl (fun s it => s + it.total) 0
          let taxRate := max 0 (min 100 req.taxRate)
          let taxAmount := subtotal * (taxRate / 100)
          let discount := max 0 req.discount
          let total0 := subtotal + taxAmount - discount
          let total := if total0 < 0 then 0 else total0
          let invID := fresh 1000
          let inv : Invoice :=
            { id := invID, userID := userID, clientID := clientID,
              invoiceNumber := fresh 1001, reference := trimSpace req.reference,
              currency := currency,
              subtotal := round2 subtotal, taxRate := taxRate,
              taxAmount := round2 taxAmount, discount := round2 discount,
              total := round2 total, paidAmount := 0,
              status := InvoiceStatus.draft, dueDate := req.dueDate.getD 0,
              sentAt := false, viewedAt := false, paidAt := false,
              notes := trimSpace req.notes, terms := trimSpace req.terms,
              magicToken := fresh 1002,
              items := items.map (fun it => { it with invoiceID := invID }) }
          .ok ({ st with invoices := st.invoices ++ [inv] }, inv)

/-! ## Invoice editing (invoice.go `UpdateInvoice`, `UpdateInvoiceItems`) -/

/-- `UpdateInvoiceRequest`: each field is an optional pointer.  For the due
date the inner `Option` distinguishes Go's zero `time.Time` (`none`). -/
structure UpdateInvoiceRequest where
  dueDate : Option (Option ℚ)
  reference : Option String
  currency : Option String
  taxRate : Option ℚ
  discount : Option ℚ
  notes : Option String
  terms : Option String
deriving DecidableEq

/-- The field-assignment block of `UpdateInvoice` (invoice.go:300-329). -/
def applyUpdateFields (inv : Invoice) (req : UpdateInvoiceRequest) : Invoice :=
  let inv := match req.dueDate with
    | some (some d) => { inv with dueDate := d }
    | _ => inv
  let inv := match req.reference with
    | some r => { inv with reference := trimSpace r }
    | none => inv
  let inv := match req.currency with
    | some c =>
      if validCurrencies.contains (toUpperStr c) then { inv with currency := toUpperStr c }
      else inv
    | none => inv
  let inv := match req.taxRate with
    | some r => { inv with taxRate := max 0 (min 100 r) }
    | none => inv
  let inv := match req.discount with
    | some d => { inv with discount := max 0 d }
    | none => inv
  let inv := match req.notes with
    | some n => { inv with notes := trimSpace n }
    | none => inv
  match req.terms with
  | some t => { inv with terms := trimSpace t }
  | none => inv

/-- `UpdateInvoice` (invoice.go:288-339): only drafts may be edited; a present
but zero due date is rejected; fields are updated and totals recalculated. -/
def updateInvoice (st : Store) (invoiceID userID : String)
    (req : UpdateInvoiceRequest) : Except InvoiceError (Store × Invoice) :=
  match getInvoiceByID st invoiceID userID with
  | none => .error .notFoundInvoice
  | some inv =>
    if inv.status ≠ InvoiceStatus.draft then .error .cannotEditPaid
    else if req.dueDate = some none then
      .error (.validationMsg "due date cannot be empty")
    else
      let inv2 := recalculateInvoiceTotals (applyUpdateFields inv req)
      .ok (saveInvoice st inv2, inv2)

/-- The item loop of `UpdateInvoiceItems` (invoice.go:368-384): negative
quantity is rejected; unlike creation, a negative unit price is kept. -/
def buildUpdateItems (invoiceID : String) (fresh : ℕ → String) :
    ℕ → List InvoiceItemRequest → Except InvoiceError (List InvoiceItem)
  | _, [] => .ok []
  | i, item :: rest =>
    if item.quantity < 0 then .error .invalidQuantity
    else
      let line : InvoiceItem :=
        { id := fresh i, invoiceID := invoiceID,
          description := trimSpace item.description,
          quantity := item.quantity, unitPrice := item.unitPrice,
          unit := item.unit, total := item.quantity * item.unitPrice,
          sortOrder := i }
      match buildUpdateItems invoiceID fresh (i + 1) rest with
      | .error e => .error e
      | .ok ls => .ok (line :: ls)

/-- `UpdateInvoiceItems` (invoice.go:342-406): drafts only; wholesale item
replacement inside one transaction, then totals recalculated and saved. -/
def updateInvoiceItems (st : Store) (invoiceID userID : String)
    (items : List InvoiceItemRequest) (fresh : ℕ → String) :
    Except InvoiceError (Store × Invoice) :=
  match getInvoiceByID st invoiceID userID with
  | none => .error .notFoundInvoice
  | some inv =>
    if inv.status ≠ InvoiceStatus.draft then .error .cannotEditPaid
    else if items.isEmpty then .error .emptyItems
    else
      match buildUpdateItems invoiceID fresh 0 items with
      | .error e => .error e
      | .ok newItems =>
        let inv2 := recalculateInvoiceTotals { inv with items := newItems }
        .ok (saveInvoice st inv2, inv2)

/-! ## Collection Scheduler late fee (reminders.go) -/

/-- `ReminderConfig` (reminders.go:20-30), the fields the late fee uses. -/
structure ReminderConfig where
  daysBeforeDue : ℤ
  lateFeePercent : ℚ
  lateFeeCap : ℚ
  gracePeriodDays : ℤ
deriving DecidableEq

/-- `applyLateFee` (reminders.go:219-248): the tax-rate field doubles as the
fee-applied flag; the fee is capped, written into the tax fields, and the
total recomputed as subtotal + fee - discount. -/
def applyLateFee (cfg : ReminderConfig) (inv : Invoice) : Invoice :=
  if 0 < inv.taxRate ∧ inv.taxRate < 100 then inv
  else
    let lateFee0 := (inv.total - inv.paidAmount) * (cfg.lateFeePercent / 100)
    let lateFee := if cfg.lateFeeCap < lateFee0 then cfg.lateFeeCap else lateFee0
    if lateFee ≤ 0 then inv
    else
      { inv with taxRate := cfg.lateFeePercent, taxAmount := lateFee,
                 total := inv.subtotal + lateFee - inv.discount }

/-- The gate around `applyLateFee` in `RunReminders` (reminders.go:92-96):
apply only past the grace period and when a percentage is configured. -/
def runLateFeeCheck (cfg : ReminderConfig) (daysOverdue : ℤ) (inv : Invoice) :
    Invoice :=
  if cfg.gracePeriodDays < daysOverdue ∧ 0 < cfg.lateFeePercent then
    applyLateFee cfg inv
  else inv

/-! ## Webhook Reconciler (cmd/server/payment.go `HandleIntasendWebhook`) -/

/-- The webhook payload after JSON binding.  The free-text `amount` field is
modelled by its `fmt.Sscanf` parse result: `none` for an empty or unparsable
string, `some v` for a successfully parsed value. -/
structure WebhookPayload where
  event : String
  invoiceNumber : String
  amount : Option ℚ
  reference : String
deriving DecidableEq

/-- An HTTP-level acknowledgment: status code and body tag. -/
structure WebhookResponse where
  code : ℕ
  body : String
deriving DecidableEq

/-- `HandleIntasendWebhook` (payment.go:274-358, the handler the gateway
calls after JSON binding succeeded): missing or unknown invoice numbers are
acknowledged as ignored; reversal events revert the status to sent;
successful-payment events create a payment row (id supplied as
`freshPayID`) and mark the invoice paid; other events are acknowledged. -/
def handleIntasendWebhook (st : Store) (p : WebhookPayload)
    (freshPayID : String) : Store × WebhookResponse :=
  if p.invoiceNumber = "" then (st, ⟨200, "ignored"⟩)
  else
    match st.invoices.find? (fun i => i.invoiceNumber == p.invoiceNumber) with
    | none => (st, ⟨200, "ignored"⟩)
    | some inv =>
      if p.event == "payment_reversed" || p.event == "chargeback" then
        (saveInvoice st { inv with status := InvoiceStatus.sent }, ⟨200, "received"⟩)
      else if p.event == "payment_successful" || p.event == "invoice_payment_signed" then
        let amount0 := match p.amount with
          | some v => v
          | none => 0
        let amount := if amount0 = 0 then inv.total else amount0
        let payment : Payment :=
          { id := freshPayID, userID := inv.userID, invoiceID := inv.id,
            amount := amount, currency := inv.currency, method := "mpesa",
            status := "completed", reference := p.reference, completedAt := true }
        let st1 := { st with payments := st.payments ++ [payment] }
        (saveInvoice st1 { inv with status := InvoiceStatus.paid }, ⟨200, "received"⟩)
      else (st, ⟨200, "received"⟩)

/-! ## General lemmas -/

theorem payAll_cons (inv : Invoice) (a : ℚ) (l : List ℚ) :
    payAll inv (a :: l) = payAll (applyPaymentToInvoice inv a) l := rfl

theorem applyPaymentToInvoice_total (inv : Invoice) (a : ℚ) :
    (applyPaymentToInvoice inv a).total = inv.total := by
  unfold applyPaymentToInvoice
  dsimp only
  split
  · rfl
  · split <;> rfl

/-- Payments that are whole cents accumulate exactly: starting from a
whole-cent non-negative paid amount, a non-empty run of positive whole-cent
payments whose sum brings the paid amount exactly to the total ends with
status paid and paidAmount equal to the total. -/
theorem payAll_cents_exact (amts : List ℚ) (inv : Invoice) (hne : amts ≠ [])
    (hc : isCents inv.paidAmount) (h0 : 0 ≤ inv.paidAmount)
    (hmem : ∀ a ∈ amts, 0 < a ∧ isCents a)
    (hsum : inv.paidAmount + amts.sum = inv.total) :
    (payAll inv amts).status = InvoiceStatus.paid ∧
    (payAll inv amts).paidAmount = inv.total := by
  induction amts generalizing inv with
  | nil => exact absurd rfl hne
  | cons a rest ih =>
    have ha := hmem a (by simp)
    have hr : round2 (inv.paidAmount + a) = inv.paidAmount + a :=
      round2_of_isCents (isCents_add hc ha.2)
    cases rest with
    | nil =>
      have hsum2 : inv.paidAmount + a = inv.total := by simpa using hsum
      rw [payAll_cons]
      simp only [payAll, List.foldl_nil]
      unfold applyPaymentToInvoice
      have hr2 : round2 (inv.paidAmount + a) = inv.total := by rw [hr, hsum2]
      simp [hr2]
    | cons b rest2 =>
      have hpos : 0 < (b :: rest2).sum :=
        List.sum_pos _ (fun x hx => (hmem x (by simp [hx])).1) (by simp)
      have hsum3 : inv.paidAmount + a + (b :: rest2).sum = inv.total := by
        rw [List.sum_cons] at hsum
        linarith
      have hlt : round2 (inv.paidAmount + a) < inv.total := by
        rw [hr]
        linarith
      have hgt : 0 < round2 (inv.paidAmount + a) := by
        rw [hr]
        linarith [ha.1]
      have step : applyPaymentToInvoice inv a =
          { inv with paidAmount := round2 (inv.paidAmount + a),
                     status := InvoiceStatus.partlyPaid } := by
        unfold applyPaymentToInvoice
        rw [if_neg (not_le.2 hlt), if_pos hgt]
      rw [payAll_cons, step]
      have hres := ih
        { inv with paidAmount := round2 (inv.paidAmount + a),
                   status := InvoiceStatus.partlyPaid }
        (by simp)
        (by simpa [hr] using isCents_add hc ha.2)
        (by simp only [hr]; linarith [ha.1])
        (fun x hx => hmem x (by simp [hx]))
        (by simp only [hr]; exact hsum3)
      simpa using hres

/-! ## Concrete instances shared by the checks below -/

/-- A base invoice for concrete instances; fields overridden as needed. -/
def baseInvoice : Invoice :=
  { id := "inv1", userID := "u1", clientID := "c1", invoiceNumber := "INV-1",
    reference := "", currency := "KES", subtotal := 0, taxRate := 0,
    taxAmount := 0, discount := 0, total := 0, paidAmount := 0,
    status := InvoiceStatus.draft, dueDate := 0, sentAt := false,
    viewedAt := false, paidAt := false, notes := "", terms := "",
    magicToken := "t", items := [] }

/-! ## Claim C2: RecordPayment status derivation -/

/-- C2 (amended): each `RecordPayment` call derives the state from the
rounded accumulated paid amount: if it reaches the total the invoice becomes
paid with paidAmount clamped to exactly the total and the paid timestamp set,
else if positive it becomes partially paid; and payments that are whole-cent
amounts summing to exactly the total end with status paid and paidAmount =
total over any number of calls.  (The whole-cent restriction is forced: with
arbitrary positive amounts the per-call rounding can lose sub-cent payments,
see the counterexample.) -/
theorem recordPayment_status_derivation :
    (∀ (inv : Invoice) (a : ℚ),
      (inv.total ≤ round2 (inv.paidAmount + a) →
        (applyPaymentToInvoice inv a).status = InvoiceStatus.paid ∧
        (applyPaymentToInvoice inv a).paidAmount = inv.total ∧
        (applyPaymentToInvoice inv a).paidAt = true) ∧
      (¬ inv.total ≤ round2 (inv.paidAmount + a) →
        0 < round2 (inv.paidAmount + a) →
        (applyPaymentToInvoice inv a).status = InvoiceStatus.partlyPaid ∧
        (applyPaymentToInvoice inv a).paidAmount = round2 (inv.paidAmount + a))) ∧
    (∀ (inv : Invoice) (amts : List ℚ), amts ≠ [] →
      inv.paidAmount = 0 → (∀ a ∈ amts, 0 < a ∧ isCents a) →
      amts.sum = inv.total →
      (payAll inv amts).status = InvoiceStatus.paid ∧
      (payAll inv amts).paidAmount = inv.total) := by
  constructor
  · intro inv a
    constructor
    · intro h
      unfold applyPaymentToInvoice
      dsimp only
      rw [if_pos h]
      exact ⟨rfl, rfl, rfl⟩
    · intro h hpos
      unfold applyPaymentToInvoice
      dsimp only
      rw [if_neg h, if_pos hpos]
      exact ⟨rfl, rfl⟩
  · intro inv amts hne h0 hmem hsum
    exact payAll_cents_exact amts inv hne
      (by rw [h0]; exact ⟨0, by norm_num⟩)
      (by rw [h0])
      hmem
      (by rw [h0, zero_add]; exact hsum)

/-- The concrete invoice for the C2 witness: total 1.00, nothing paid. -/
def wInvC2 : Invoice := { baseInvoice with status := InvoiceStatus.sent, total := 1 }

/-- Witness for C2: two payments of 0.50 on a 1.00 invoice end paid with
paidAmount equal to the total. -/
theorem recordPayment_status_derivation_witness :
    (payAll wInvC2 [1/2, 1/2]).status = InvoiceStatus.paid ∧
    (payAll wInvC2 [1/2, 1/2]).paidAmount = wInvC2.total :=
  recordPayment_status_derivation.2 wInvC2 [1/2, 1/2] (by simp) rfl
    (by
      intro a ha
      simp only [List.mem_cons, List.not_mem_nil, or_false] at ha
      rcases ha with rfl | rfl
      · exact ⟨by norm_num, ⟨50, by norm_num⟩⟩
      · exact ⟨by norm_num, ⟨50, by norm_num⟩⟩)
    (by norm_num [wInvC2, baseInvoice])

/-- The concrete invoice for the C2 counterexample: total 0.02, status sent. -/
def cexInvC2 : Invoice := { baseInvoice with status := InvoiceStatus.sent, total := 1/50 }

/-- C2 counterexample: five positive payments of 0.004 sum to exactly the
invoice total 0.02, yet each call rounds the accumulated amount to 0, so the
invoice never becomes paid and paidAmount stays 0, refuting the claim that
payments summing to exactly the total always end with status paid and
paidAmount = total. -/
theorem subcent_payments_sum_to_total_without_paid :
    ([1/250, 1/250, 1/250, 1/250, 1/250] : List ℚ).sum = cexInvC2.total ∧
    (∀ a ∈ ([1/250, 1/250, 1/250, 1/250, 1/250] : List ℚ), 0 < a) ∧
    (payAll cexInvC2 [1/250, 1/250, 1/250, 1/250, 1/250]).status = InvoiceStatus.sent ∧
    (payAll cexInvC2 [1/250, 1/250, 1/250, 1/250, 1/250]).paidAmount = 0 ∧
    InvoiceStatus.sent ≠ InvoiceStatus.paid ∧ (0 : ℚ) ≠ cexInvC2.total := by
  refine ⟨by norm_num [cexInvC2, baseInvoice], ?_, ?_, ?_, by simp, by norm_num [cexInvC2, baseInvoice]⟩
  · intro a ha
    simp only [List.mem_cons, List.not_mem_nil, or_false] at ha
    rcases ha with rfl | rfl | rfl | rfl | rfl <;> norm_num
  · simp [payAll, applyPaymentToInvoice, cexInvC2, baseInvoice, round2]
    norm_num
  · simp [payAll, applyPaymentToInvoice, cexInvC2, baseInvoice, round2]
    norm_num

/-! ## Claim C10: RecordPayment has no status precondition -/

/-- C10 (confirmed): `RecordPayment` imposes no precondition on the invoice's
status: for every invoice found under the caller's user scope — whatever its
status, including draft and cancelled — recording a payment succeeds, and a
payment of at least the total moves the invoice directly to status paid with
paidAmount clamped to the total and the paid timestamp set.  (The non-negative
2-decimal hypotheses on the stored amounts are the data-model invariants.) -/
theorem recordPayment_ignores_status :
    ∀ (st : Store) (invoiceID : String) (p : Payment) (inv : Invoice),
      getInvoiceByID st invoiceID p.userID = some inv →
      isCents inv.total → 0 ≤ inv.total → 0 ≤ inv.paidAmount →
      inv.total ≤ p.amount →
      recordPayment st invoiceID p =
        .ok (saveInvoice
              { st with payments := st.payments ++ [{ p with invoiceID := invoiceID }] }
              (applyPaymentToInvoice inv p.amount)) ∧
      (applyPaymentToInvoice inv p.amount).status = InvoiceStatus.paid ∧
      (applyPaymentToInvoice inv p.amount).paidAmount = inv.total ∧
      (applyPaymentToInvoice inv p.amount).paidAt = true := by
  intro st invoiceID p inv hfind hc h0 hp hle
  have hcond : inv.total ≤ round2 (inv.paidAmount + p.amount) :=
    le_round2_of_le hc h0 (by linarith)
  refine ⟨?_, ?_, ?_, ?_⟩
  · unfold recordPayment
    rw [hfind]
  · unfold applyPaymentToInvoice
    dsimp only
    rw [if_pos hcond]
  · unfold applyPaymentToInvoice
    dsimp only
    rw [if_pos hcond]
  · unfold applyPaymentToInvoice
    dsimp only
    rw [if_pos hcond]

/-- The C10 witness invoice: a cancelled invoice with total 50. -/
def wInvC10 : Invoice :=
  { baseInvoice with status := InvoiceStatus.cancelled, total := 50 }

/-- The C10 witness store. -/
def wStC10 : Store := { clients := [], invoices := [wInvC10], payments := [] }

/-- The C10 witness payment: 60 against the total of 50. -/
def wPayC10 : Payment :=
  { id := "p1", userID := "u1", invoiceID := "", amount := 60, currency := "KES",
    method := "cash", status := "completed", reference := "rc", completedAt := true }

/-- Witness for C10: paying 60 on a cancelled invoice of total 50 succeeds
and moves it straight to paid with paidAmount 50. -/
theorem recordPayment_ignores_status_witness :
    recordPayment wStC10 "inv1" wPayC10 =
      .ok (saveInvoice
            { wStC10 with payments := wStC10.payments ++ [{ wPayC10 with invoiceID := "inv1" }] }
            (applyPaymentToInvoice wInvC10 wPayC10.amount)) ∧
    (applyPaymentToInvoice wInvC10 wPayC10.amount).status = InvoiceStatus.paid ∧
    (applyPaymentToInvoice wInvC10 wPayC10.amount).paidAmount = wInvC10.total ∧
    (applyPaymentToInvoice wInvC10 wPayC10.amount).paidAt = true :=
  recordPayment_ignores_status wStC10 "inv1" wPayC10 wInvC10
    (by simp [getInvoiceByID, trimSpace, isSpaceChar, wStC10, wInvC10, wPayC10,
      baseInvoice, List.find?])
    ⟨5000, by norm_num [wInvC10, baseInvoice]⟩
    (by norm_num [wInvC10, baseInvoice])
    (by norm_num [wInvC10, baseInvoice])
    (by norm_num [wInvC10, wPayC10, baseInvoice])

/-! ## Claim C3: late-fee application -/

/-- C3 (amended): past the grace period, with a late-fee percentage
configured and the reused tax-rate flag reporting no fee applied yet, the
applied fee (written into the tax-amount field) equals
min(outstanding × percent/100, cap), and the new total equals
subtotal + fee − discount; this equals the old total plus the fee exactly
when the invoice's tax amount is zero and its total is subtotal − discount.
(The claim's "new total = old total + fee" fails when a genuine tax amount
was present: the fee overwrites it, see the counterexample.) -/
theorem lateFee_formula :
    ∀ (cfg : ReminderConfig) (d : ℤ) (inv : Invoice),
      cfg.gracePeriodDays < d → 0 < cfg.lateFeePercent →
      ¬ (0 < inv.taxRate ∧ inv.taxRate < 100) →
      0 < min ((inv.total - inv.paidAmount) * (cfg.lateFeePercent / 100)) cfg.lateFeeCap →
      (runLateFeeCheck cfg d inv).taxAmount =
        min ((inv.total - inv.paidAmount) * (cfg.lateFeePercent / 100)) cfg.lateFeeCap ∧
      (runLateFeeCheck cfg d inv).total =
        inv.subtotal +
          min ((inv.total - inv.paidAmount) * (cfg.lateFeePercent / 100)) cfg.lateFeeCap -
          inv.discount ∧
      (inv.taxAmount = 0 → inv.total = inv.subtotal - inv.discount →
        (runLateFeeCheck cfg d inv).total =
          inv.total +
            min ((inv.total - inv.paidAmount) * (cfg.lateFeePercent / 100)) cfg.lateFeeCap) := by
  intro cfg d inv hd hpct hflag hfee
  have hgate : runLateFeeCheck cfg d inv = applyLateFee cfg inv := by
    unfold runLateFeeCheck
    rw [if_pos ⟨hd, hpct⟩]
  have hmin :
      (if cfg.lateFeeCap < (inv.total - inv.paidAmount) * (cfg.lateFeePercent / 100) then
        cfg.lateFeeCap
      else (inv.total - inv.paidAmount) * (cfg.lateFeePercent / 100)) =
      min ((inv.total - inv.paidAmount) * (cfg.lateFeePercent / 100)) cfg.lateFeeCap := by
    by_cases h : cfg.lateFeeCap < (inv.total - inv.paidAmount) * (cfg.lateFeePercent / 100)
    · rw [if_pos h, min_eq_right h.le]
    · rw [if_neg h, min_eq_left (not_lt.1 h)]
  have happ : applyLateFee cfg inv =
      { inv with taxRate := cfg.lateFeePercent,
                 taxAmount :=
                   min ((inv.total - inv.paidAmount) * (cfg.lateFeePercent / 100)) cfg.lateFeeCap,
                 total :=
                   inv.subtotal +
                     min ((inv.total - inv.paidAmount) * (cfg.lateFeePercent / 100))
                       cfg.lateFeeCap - inv.discount } := by
    unfold applyLateFee
    rw [if_neg hflag]
    dsimp only
    rw [hmin, if_neg (not_le.2 hfee)]
  rw [hgate, happ]
  refine ⟨rfl, rfl, ?_⟩
  intro hta htot
  show inv.subtotal + _ - inv.discount = _
  rw [htot]
  ring

/-- The reminder configuration of the C3 instances (5%, cap 5000, grace 3). -/
def cfgC3 : ReminderConfig :=
  { daysBeforeDue := 3, lateFeePercent := 5, lateFeeCap := 5000, gracePeriodDays := 3 }

/-- The C3 counterexample invoice: a genuine 100% tax rate, never any fee. -/
def cexInvC3 : Invoice :=
  { baseInvoice with
      status := InvoiceStatus.sent, subtotal := 100, taxRate := 100,
      taxAmount := 100, total := 200 }

/-- C3 counterexample: on an invoice with a genuine 100% tax (subtotal 100,
tax 100, total 200, nothing paid, no fee ever applied — the reused tax-rate
flag lets it through), the applied fee is 10 = min(cap, outstanding × 5%)
exactly as the claim says, but the new total is 110 = subtotal + fee −
discount, not old total + fee = 210: the prior tax amount is dropped. -/
theorem lateFee_drops_prior_tax :
    (runLateFeeCheck cfgC3 30 cexInvC3).taxAmount =
      min ((cexInvC3.total - cexInvC3.paidAmount) * (cfgC3.lateFeePercent / 100))
        cfgC3.lateFeeCap ∧
    min ((cexInvC3.total - cexInvC3.paidAmount) * (cfgC3.lateFeePercent / 100))
      cfgC3.lateFeeCap = 10 ∧
    (runLateFeeCheck cfgC3 30 cexInvC3).total = 110 ∧
    cexInvC3.total + 10 = 210 ∧ (110 : ℚ) ≠ 210 := by
  norm_num [runLateFeeCheck, applyLateFee, cfgC3, cexInvC3, baseInvoice]

/-- The C3 witness invoice: outstanding 20000, no tax, as in the spec's
scenario. -/
def wInvC3 : Invoice :=
  { baseInvoice with status := InvoiceStatus.sent, subtotal := 20000, total := 20000 }

/-- Witness for C3: 30 days overdue, fee 5% capped at 5000 on outstanding
20000 gives fee 1000 and new total = old total + 1000. -/
theorem lateFee_formula_witness :
    (runLateFeeCheck cfgC3 30 wInvC3).total =
      wInvC3.total +
        min ((wInvC3.total - wInvC3.paidAmount) * (cfgC3.lateFeePercent / 100))
          cfgC3.lateFeeCap :=
  (lateFee_formula cfgC3 30 wInvC3 (by norm_num [cfgC3]) (by norm_num [cfgC3])
    (by norm_num [wInvC3, baseInvoice])
    (by norm_num [wInvC3, cfgC3, baseInvoice])).2.2
    (by norm_num [wInvC3, baseInvoice])
    (by norm_num [wInvC3, baseInvoice])

/-! ## Claim C8: unknown invoice numbers are acknowledged without mutation -/

/-- C8 (confirmed): a webhook event whose invoice number is missing or
matches no stored invoice leaves the store unchanged (no invoice and no
payment is mutated) and is acknowledged with a 200 "ignored" response,
never an error. -/
theorem webhook_unknown_invoice_noop :
    ∀ (st : Store) (p : WebhookPayload) (fid : String),
      (p.invoiceNumber = "" ∨
        st.invoices.find? (fun i => i.invoiceNumber == p.invoiceNumber) = none) →
      handleIntasendWebhook st p fid = (st, ⟨200, "ignored"⟩) := by
  intro st p fid h
  unfold handleIntasendWebhook
  rcases h with h | h
  · rw [if_pos h]
  · by_cases h2 : p.invoiceNumber = ""
    · rw [if_pos h2]
    · rw [if_neg h2, h]

/-- The C8 witness store: one sent invoice numbered INV-1. -/
def wStC8 : Store :=
  { clients := [], invoices := [{ baseInvoice with status := InvoiceStatus.sent }],
    payments := [] }

/-- The C8 witness payload: a successful-payment event for an unknown number. -/
def wPC8 : WebhookPayload :=
  { event := "payment_successful", invoiceNumber := "NOPE", amount := none,
    reference := "r9" }

/-- Witness for C8: the unknown invoice number leaves the store untouched and
returns 200 "ignored". -/
theorem webhook_unknown_invoice_noop_witness :
    handleIntasendWebhook wStC8 wPC8 "pay1" = (wStC8, ⟨200, "ignored"⟩) :=
  webhook_unknown_invoice_noop wStC8 wPC8 "pay1"
    (Or.inr (by simp [wStC8, wPC8, baseInvoice, List.find?]))

/-! ## Claim C7: reversal events only revert the status -/

/-- C7 (confirmed): a payment_reversed or chargeback event on a found invoice
sets that invoice's status to sent, leaves every payment row unchanged,
leaves the invoice's paidAmount unchanged, and touches no other invoice. -/
theorem webhook_reversal_preserves_ledger :
    ∀ (st : Store) (p : WebhookPayload) (fid : String) (inv : Invoice),
      st.invoices.find? (fun i => i.invoiceNumber == p.invoiceNumber) = some inv →
      p.invoiceNumber ≠ "" →
      (p.event = "payment_reversed" ∨ p.event = "chargeback") →
      handleIntasendWebhook st p fid =
        (saveInvoice st { inv with status := InvoiceStatus.sent }, ⟨200, "received"⟩) ∧
      (saveInvoice st { inv with status := InvoiceStatus.sent }).payments = st.payments ∧
      ({ inv with status := InvoiceStatus.sent }).paidAmount = inv.paidAmount ∧
      (saveInvoice st { inv with status := InvoiceStatus.sent }).invoices =
        st.invoices.map
          (fun i => if i.id == inv.id then { inv with status := InvoiceStatus.sent } else i) := by
  intro st p fid inv hfind hne hev
  refine ⟨?_, rfl, rfl, rfl⟩
  unfold handleIntasendWebhook
  rw [if_neg hne, hfind]
  have hb : (p.event == "payment_reversed" || p.event == "chargeback") = true := by
    rcases hev with h | h <;> simp [h]
  simp only [hb, if_true]

/-- The C7 witness invoice: paid, with paidAmount 75. -/
def wInvC7 : Invoice :=
  { baseInvoice with status := InvoiceStatus.paid, paidAmount := 75, total := 75 }

/-- The C7 witness store: the paid invoice and its payment row. -/
def wStC7 : Store :=
  { clients := [], invoices := [wInvC7],
    payments := [⟨"p0", "u1", "inv1", 75, "KES", "mpesa", "completed", "rX", true⟩] }

/-- The C7 witness payload: a reversal for INV-1. -/
def wPC7 : WebhookPayload :=
  { event := "payment_reversed", invoiceNumber := "INV-1", amount := none,
    reference := "" }

/-- Witness for C7 at the concrete reversal: status goes back to sent, the
payment row and paidAmount survive. -/
theorem webhook_reversal_preserves_ledger_witness :
    handleIntasendWebhook wStC7 wPC7 "pp" =
      (saveInvoice wStC7 { wInvC7 with status := InvoiceStatus.sent }, ⟨200, "received"⟩) ∧
    (saveInvoice wStC7 { wInvC7 with status := InvoiceStatus.sent }).payments = wStC7.payments ∧
    ({ wInvC7 with status := InvoiceStatus.sent }).paidAmount = wInvC7.paidAmount ∧
    (saveInvoice wStC7 { wInvC7 with status := InvoiceStatus.sent }).invoices =
      wStC7.invoices.map
        (fun i => if i.id == wInvC7.id then { wInvC7 with status := InvoiceStatus.sent } else i) :=
  webhook_reversal_preserves_ledger wStC7 wPC7 "pp" wInvC7
    (by simp [wStC7, wInvC7, wPC7, baseInvoice, List.find?])
    (by simp [wPC7])
    (Or.inl rfl)

/-! ## Claim C5: fallback amount for unparsable or zero webhook amounts -/

/-- C5 (amended): for successful-payment events whose free-text amount is
unparsable or parses to zero, the amount written into the created payment
row is the invoice's full total — not the outstanding total − paidAmount
that the claim states (see the counterexample). -/
theorem webhook_fallback_amount :
    ∀ (st : Store) (p : WebhookPayload) (fid : String) (inv : Invoice),
      st.invoices.find? (fun i => i.invoiceNumber == p.invoiceNumber) = some inv →
      p.invoiceNumber ≠ "" →
      (p.event = "payment_successful" ∨ p.event = "invoice_payment_signed") →
      (p.amount = none ∨ p.amount = some 0) →
      (handleIntasendWebhook st p fid).1.payments.map (fun q => q.amount) =
        (st.payments.map (fun q => q.amount)) ++ [inv.total] := by
  intro st p fid inv hfind hne hev hamt
  unfold handleIntasendWebhook
  rw [if_neg hne, hfind]
  have hb1 : (p.event == "payment_reversed" || p.event == "chargeback") = false := by
    rcases hev with h | h <;> simp [h]
  have hb2 : (p.event == "payment_successful" || p.event == "invoice_payment_signed") = true := by
    rcases hev with h | h <;> simp [h]
  rcases hamt with h | h <;>
    simp [hb1, hb2, h, saveInvoice, List.map_append]

/-- The C5 counterexample invoice: total 100 with 30 already paid. -/
def cexInvC5 : Invoice :=
  { baseInvoice with status := InvoiceStatus.partlyPaid, total := 100, paidAmount := 30 }

/-- The C5 counterexample store. -/
def cexStC5 : Store := { clients := [], invoices := [cexInvC5], payments := [] }

/-- The C5 counterexample payload: unparsable amount, reference r1. -/
def cexPC5 : WebhookPayload :=
  { event := "payment_successful", invoiceNumber := "INV-1", amount := none,
    reference := "r1" }

/-- C5 counterexample: invoice total 100, paidAmount 30, webhook amount
unparsable: the payment row is created with amount 100 (the full total),
while the claim demands the outstanding 100 − 30 = 70. -/
theorem webhook_fallback_is_total_not_outstanding :
    (handleIntasendWebhook cexStC5 cexPC5 "pay1").1.payments.map (fun q => q.amount) = [100] ∧
    cexInvC5.total - cexInvC5.paidAmount = 70 ∧ (100 : ℚ) ≠ 70 := by
  refine ⟨?_, by norm_num [cexInvC5, baseInvoice], by norm_num⟩
  simp [handleIntasendWebhook, cexStC5, cexPC5, cexInvC5, baseInvoice, saveInvoice,
    List.find?]

/-- Witness for C5's amended theorem at the same concrete input. -/
theorem webhook_fallback_amount_witness :
    (handleIntasendWebhook cexStC5 cexPC5 "pay1").1.payments.map (fun q => q.amount) =
      (cexStC5.payments.map (fun q => q.amount)) ++ [cexInvC5.total] :=
  webhook_fallback_amount cexStC5 cexPC5 "pay1" cexInvC5
    (by simp [cexStC5, cexInvC5, cexPC5, baseInvoice, List.find?])
    (by simp [cexPC5])
    (Or.inl rfl)
    (Or.inl rfl)

/-! ## Claim C1: webhook redelivery is not idempotent (code bug) -/

/-- The invoice of `cexStC5` after the first successful-payment delivery. -/
def cexInvC5paid : Invoice := { cexInvC5 with status := InvoiceStatus.paid }

/-- The payment row the webhook creates for `cexPC5` (id supplied). -/
def wPayRowC1 (i : String) : Payment :=
  { id := i, userID := "u1", invoiceID := "inv1", amount := 100, currency := "KES",
    method := "mpesa", status := "completed", reference := "r1", completedAt := true }

/-- The store after the first delivery of `cexPC5`. -/
def stAfterFirstC1 : Store :=
  { clients := [], invoices := [cexInvC5paid], payments := [wPayRowC1 "pay1"] }

/-- The store after the second (identical) delivery of `cexPC5`. -/
def stAfterSecondC1 : Store :=
  { clients := [], invoices := [cexInvC5paid],
    payments := [wPayRowC1 "pay1", wPayRowC1 "pay2"] }

/-- C1 (code bug): delivering the same successful-payment event (same
external reference "r1") twice creates two Payment rows with that
reference — the handler has no dedup check against the payment's external
reference, contradicting the idempotency the spec requires.  (This path
also never updates paidAmount: it stays 30 throughout.) -/
theorem webhook_redelivery_duplicates_payment :
    handleIntasendWebhook cexStC5 cexPC5 "pay1" = (stAfterFirstC1, ⟨200, "received"⟩) ∧
    handleIntasendWebhook stAfterFirstC1 cexPC5 "pay2" =
      (stAfterSecondC1, ⟨200, "received"⟩) ∧
    stAfterSecondC1.payments.map (fun q => q.reference) = ["r1", "r1"] ∧
    stAfterSecondC1.payments.length = 2 ∧
    stAfterSecondC1.invoices.map (fun i => i.paidAmount) = [30] := by
  refine ⟨?_, ?_, by simp [stAfterSecondC1, wPayRowC1], by simp [stAfterSecondC1],
    by simp [stAfterSecondC1, cexInvC5paid, cexInvC5, baseInvoice]⟩
  · simp [handleIntasendWebhook, cexStC5, cexPC5, cexInvC5, cexInvC5paid, baseInvoice,
      saveInvoice, List.find?, stAfterFirstC1, wPayRowC1]
  · simp [handleIntasendWebhook, cexPC5, cexInvC5, cexInvC5paid, baseInvoice,
      saveInvoice, List.find?, stAfterFirstC1, stAfterSecondC1, wPayRowC1]

/-! ## Claim C4: the stored total formula -/

theorem foldl_add_total (l : List InvoiceItem) (a : ℚ) :
    l.foldl (fun s it => s + it.total) a = a + (l.map (fun it => it.total)).sum := by
  induction l generalizing a with
  | nil => simp
  | cons x xs ih =>
    simp only [List.foldl_cons, List.map_cons, List.sum_cons, ih]
    ring

theorem buildCreateItems_totals (fresh : ℕ → String) (reqs : List InvoiceItemRequest) :
    ∀ (i : ℕ) (items : List InvoiceItem),
      buildCreateItems fresh i reqs = .ok items →
      items.map (fun it => it.total) =
        reqs.map (fun r => r.quantity * (if r.unitPrice < 0 then 0 else r.unitPrice)) := by
  induction reqs with
  | nil =>
    intro i items h
    simp only [buildCreateItems] at h
    cases h
    rfl
  | cons r rest ih =>
    intro i items h
    simp only [buildCreateItems] at h
    split at h
    · exact absurd h (by simp)
    · split at h
      · exact absurd h (by simp)
      · rename_i ls heq
        cases h
        simp only [List.map_cons]
        rw [ih (i + 1) ls heq]

/-- C4 (amended): on creation the stored total satisfies the claim's single
rounding formula `max 0 (round2 (Σ quantity×unitPrice × (1 + taxRate/100) −
discount))`, with the tax rate clamped to [0,100], the discount clamped to
≥ 0, and unit prices non-negative (a negative unit price is coerced to 0 by
the code, so the claimed Σ q×p only applies to non-negative prices); but on
recomputation (field or item edits) the stored total uses the already-rounded
tax amount — `max 0 (round2 (S + round2 (S×taxRate/100) − discount))` — a
double rounding that can differ from the claim's formula by a cent, see the
counterexample. -/
theorem invoice_total_formula :
    (∀ (st : Store) (u c : String) (req : CreateInvoiceRequest) (now : ℚ)
        (fresh : ℕ → String) (t : ℚ),
      (∀ r ∈ req.items, 0 ≤ r.unitPrice) →
      (createInvoice st u c req now fresh).toOption.map (fun r => r.2.total) = some t →
      t = max 0 (round2
        ((req.items.map (fun r => r.quantity * r.unitPrice)).sum *
          (1 + max 0 (min 100 req.taxRate) / 100) - max 0 req.discount))) ∧
    (∀ inv : Invoice,
      (recalculateInvoiceTotals inv).subtotal =
        round2 ((inv.items.map (fun it => it.total)).sum) ∧
      (recalculateInvoiceTotals inv).taxAmount =
        round2 ((inv.items.map (fun it => it.total)).sum * (inv.taxRate / 100)) ∧
      (recalculateInvoiceTotals inv).total =
        max 0 (round2 ((inv.items.map (fun it => it.total)).sum +
          round2 ((inv.items.map (fun it => it.total)).sum * (inv.taxRate / 100)) -
          inv.discount))) := by
  have hifmax : ∀ x : ℚ, (if x < 0 then 0 else x) = max 0 x := by
    intro x
    by_cases hx : x < 0
    · rw [if_pos hx, eq_comm, max_eq_left_iff]
      exact hx.le
    · rw [if_neg hx, eq_comm, max_eq_right_iff]
      exact not_lt.1 hx
  constructor
  · intro st u c req now fresh t hp h
    unfold createInvoice at h
    split at h
    · simp [Except.toOption] at h
    · split at h
      · simp [Except.toOption] at h
      · split at h
        · simp [Except.toOption] at h
        · split at h
          · simp [Except.toOption] at h
          · rename_i items heq
            simp only [Except.toOption, Option.map, Option.some.injEq] at h
            have hmapeq := buildCreateItems_totals fresh req.items 0 items heq
            have hfold : items.foldl (fun s it => s + it.total) 0 =
                (req.items.map (fun r => r.quantity * r.unitPrice)).sum := by
              rw [foldl_add_total, zero_add, hmapeq]
              congr 1
              apply List.map_congr_left
              intro r hr
              rw [if_neg (not_lt.2 (hp r hr))]
            rw [← h, hfold, round2_clamp]
            congr 2
            ring
  · intro inv
    unfold recalculateInvoiceTotals
    dsimp only
    rw [foldl_add_total, zero_add]
    exact ⟨rfl, rfl, hifmax _⟩

/-- The C4 counterexample invoice: a draft with tax rate 100, discount 0. -/
def cexInvC4 : Invoice := { baseInvoice with taxRate := 100 }

/-- The C4 counterexample store. -/
def cexStC4 : Store := { clients := [], invoices := [cexInvC4], payments := [] }

/-- C4 counterexample: replacing the items of a draft with tax rate 100 and
discount 0 by the single item quantity 1 × unit price 0.006 stores total
0.02 (the rounded tax amount 0.01 is added before the final rounding), while
the claim's single-rounding formula gives
max 0 (round2 (0.006 × (1 + 100/100) − 0)) = round2 0.012 = 0.01. -/
theorem recalculated_total_double_rounds :
    ((updateInvoiceItems cexStC4 "inv1" "u1" [⟨"w", 1, 3/500, ""⟩]
        (fun _ => "it")).toOption.map (fun r => r.2.total)) = some (1/50) ∧
    max 0 (round2 ((1 * (3/500) : ℚ) * (1 + 100/100) - 0)) = 1/100 ∧
    (1/50 : ℚ) ≠ 1/100 := by
  refine ⟨?_, ?_, by norm_num⟩
  · simp [updateInvoiceItems, cexStC4, cexInvC4, baseInvoice, getInvoiceByID, trimSpace,
      isSpaceChar, List.find?, buildUpdateItems, recalculateInvoiceTotals, saveInvoice,
      Except.toOption, round2]
    norm_num
    exact ⟨_, _, ⟨rfl, rfl⟩, rfl⟩
  · norm_num [round2]

/-- The C4 witness store: one client of user u1. -/
def wStC4 : Store :=
  { clients := [⟨"c1", "u1", "N", "", ""⟩], invoices := [], payments := [] }

/-- The C4 witness request: 10 × 5000 at 16% tax, no discount. -/
def wReqC4 : CreateInvoiceRequest :=
  { reference := "", currency := "KES", taxRate := 16, discount := 0,
    dueDate := some 10, notes := "", terms := "",
    items := [⟨"Web Development", 10, 5000, "hours"⟩] }

/-- Witness for C4 on the creation path: the stored total 58000 satisfies
the claimed formula (50000 subtotal + 16% tax). -/
theorem invoice_total_formula_witness :
    (58000 : ℚ) = max 0 (round2
      ((wReqC4.items.map (fun r => r.quantity * r.unitPrice)).sum *
        (1 + max 0 (min 100 wReqC4.taxRate) / 100) - max 0 wReqC4.discount)) :=
  invoice_total_formula.1 wStC4 "u1" "c1" wReqC4 0 (fun _ => "x") 58000
    (by
      intro r hr
      simp only [wReqC4, List.mem_cons, List.not_mem_nil, or_false] at hr
      subst hr
      norm_num)
    (by
      simp [createInvoice, wStC4, wReqC4, validateCreateRequest, trimSpace, isSpaceChar,
        List.find?, buildCreateItems, validCurrencies, Except.toOption, toUpperStr,
        List.isEmpty, round2]
      norm_num
      exact ⟨_, _, ⟨rfl, rfl⟩, rfl⟩)

/-! ## Claim C6: editing is draft-only -/

theorem buildUpdateItems_ok (invoiceID : String) (fresh : ℕ → String)
    (reqs : List InvoiceItemRequest) :
    ∀ i, (∀ r ∈ reqs, 0 ≤ r.quantity) →
      ∃ items, buildUpdateItems invoiceID fresh i reqs = .ok items := by
  induction reqs with
  | nil => exact fun i _ => ⟨[], rfl⟩
  | cons r rest ih =>
    intro i hq
    obtain ⟨items, heq⟩ := ih (i + 1) (fun x hx => hq x (by simp [hx]))
    refine ⟨{ id := fresh i, invoiceID := invoiceID,
              description := trimSpace r.description, quantity := r.quantity,
              unitPrice := r.unitPrice, unit := r.unit,
              total := r.quantity * r.unitPrice, sortOrder := i } :: items, ?_⟩
    simp only [buildUpdateItems]
    rw [if_neg (not_lt.2 (hq r (by simp))), heq]

/-- C6 (amended): with the invoice found in the caller's scope, editing its
fields or items on any non-draft status fails with the conflict error
`cannotEditPaid` (and produces no updated store); on a draft, a field edit
succeeds unless the request carries a present-but-zero due date, and an item
edit succeeds when the item list is non-empty with non-negative quantities —
in both cases the stored invoice is `recalculateInvoiceTotals` of the edited
invoice, i.e. subtotal, tax amount and total are recomputed from the
resulting items.  (The claim's "editing on draft always succeeds" fails for
invalid requests such as an empty item list: see the counterexample.) -/
theorem edit_requires_draft :
    ∀ (st : Store) (invoiceID userID : String) (inv : Invoice),
      getInvoiceByID st invoiceID userID = some inv →
      ((inv.status ≠ InvoiceStatus.draft →
        (∀ req, updateInvoice st invoiceID userID req = .error .cannotEditPaid) ∧
        (∀ items fresh,
          updateInvoiceItems st invoiceID userID items fresh = .error .cannotEditPaid)) ∧
      (inv.status = InvoiceStatus.draft →
        (∀ req, req.dueDate ≠ some none →
          updateInvoice st invoiceID userID req =
            .ok (saveInvoice st (recalculateInvoiceTotals (applyUpdateFields inv req)),
                 recalculateInvoiceTotals (applyUpdateFields inv req))) ∧
        (∀ items fresh newItems, items ≠ [] →
          buildUpdateItems invoiceID fresh 0 items = .ok newItems →
          updateInvoiceItems st invoiceID userID items fresh =
            .ok (saveInvoice st (recalculateInvoiceTotals { inv with items := newItems }),
                 recalculateInvoiceTotals { inv with items := newItems })) ∧
        (∀ items fresh, (∀ r ∈ items, (0:ℚ) ≤ r.quantity) →
          ∃ newItems, buildUpdateItems invoiceID fresh 0 items = .ok newItems))) := by
  intro st invoiceID userID inv hfind
  constructor
  · intro hstat
    constructor
    · intro req
      unfold updateInvoice
      rw [hfind]
      simp only [if_pos hstat]
    · intro items fresh
      unfold updateInvoiceItems
      rw [hfind]
      simp only [if_pos hstat]
  · intro hdraft
    refine ⟨?_, ?_, ?_⟩
    · intro req hdd
      have hnd : ¬ inv.status ≠ InvoiceStatus.draft := by simp [hdraft]
      unfold updateInvoice
      simp only [hfind, if_neg hnd, if_neg hdd]
    · intro items fresh newItems hne hbuild
      have hnd : ¬ inv.status ≠ InvoiceStatus.draft := by simp [hdraft]
      have hie : items.isEmpty = false := by
        cases items with
        | nil => exact absurd rfl hne
        | cons a t => rfl
      unfold updateInvoiceItems
      simp only [hfind, if_neg hnd, hie, Bool.false_eq_true, if_false, hbuild]
    · intro items fresh hq
      exact buildUpdateItems_ok invoiceID fresh items 0 hq

/-- The C6 counterexample store: a single draft invoice. -/
def cexStC6 : Store := { clients := [], invoices := [baseInvoice], payments := [] }

/-- C6 counterexample: replacing the items of a draft invoice by the empty
list fails with the validation error `emptyItems` — editing on a draft does
not always succeed, and this failure is not the conflict condition. -/
theorem empty_items_edit_on_draft_fails :
    baseInvoice.status = InvoiceStatus.draft ∧
    updateInvoiceItems cexStC6 "inv1" "u1" [] (fun _ => "x") = .error .emptyItems ∧
    InvoiceError.emptyItems ≠ InvoiceError.cannotEditPaid := by
  refine ⟨rfl, ?_, by simp⟩
  simp [updateInvoiceItems, cexStC6, baseInvoice, getInvoiceByID, trimSpace,
    isSpaceChar, List.find?]

/-- The C6 witness store with a sent (non-draft) invoice. -/
def wStC6sent : Store :=
  { clients := [], invoices := [{ baseInvoice with status := InvoiceStatus.sent }],
    payments := [] }

/-- The C6 witness field-update request: set the tax rate to 10. -/
def wReqC6 : UpdateInvoiceRequest :=
  { dueDate := none, reference := none, currency := none, taxRate := some 10,
    discount := none, notes := none, terms := none }

/-- Witness for C6: on the sent invoice both edits fail with the conflict
error; on the draft invoice the field edit succeeds and stores the
recalculated invoice. -/
theorem edit_requires_draft_witness :
    updateInvoice wStC6sent "inv1" "u1" wReqC6 = .error .cannotEditPaid ∧
    updateInvoiceItems wStC6sent "inv1" "u1" [⟨"A", 1, 5, ""⟩] (fun _ => "x") =
      .error .cannotEditPaid ∧
    updateInvoice cexStC6 "inv1" "u1" wReqC6 =
      .ok (saveInvoice cexStC6 (recalculateInvoiceTotals (applyUpdateFields baseInvoice wReqC6)),
           recalculateInvoiceTotals (applyUpdateFields baseInvoice wReqC6)) := by
  have hfind1 : getInvoiceByID wStC6sent "inv1" "u1" =
      some { baseInvoice with status := InvoiceStatus.sent } := by
    simp [getInvoiceByID, wStC6sent, baseInvoice, trimSpace, isSpaceChar, List.find?]
  have hfind2 : getInvoiceByID cexStC6 "inv1" "u1" = some baseInvoice := by
    simp [getInvoiceByID, cexStC6, baseInvoice, trimSpace, isSpaceChar, List.find?]
  have h1 := edit_requires_draft wStC6sent "inv1" "u1" _ hfind1
  have h2 := edit_requires_draft cexStC6 "inv1" "u1" baseInvoice hfind2
  exact ⟨(h1.1 (by simp)).1 wReqC6, (h1.1 (by simp)).2 _ _,
    (h2.2 rfl).1 wReqC6 (by simp [wReqC6])⟩

/-! ## Claim C9: past due dates at creation -/

/-- C9 (amended): creation rejects a due date strictly earlier than one day
before the call time with the "due date cannot be in the past" validation
error, returning before any store mutation.  (The code's check is
`DueDate.Before(now.AddDate(0,0,-1))`, so a due date that is in the past but
within the last 24 hours is accepted and the invoice is persisted: see the
counterexample.) -/
theorem create_rejects_due_date_over_a_day_old :
    ∀ (st : Store) (userID clientID : String) (req : CreateInvoiceRequest)
      (now : ℚ) (fresh : ℕ → String) (d : ℚ),
      trimSpace userID ≠ "" → trimSpace clientID ≠ "" →
      req.dueDate = some d → d < now - 1 →
      createInvoice st userID clientID req now fresh =
        .error (.validationMsg "due date cannot be in the past") := by
  intro st userID clientID req now fresh d hu hc hdd hlt
  unfold createInvoice validateCreateRequest
  simp only [if_neg hu, if_neg hc, hdd, if_pos hlt]

/-- The C9 counterexample store: a single client of user u1. -/
def cexStC9 : Store :=
  { clients := [⟨"c1", "u1", "N", "", ""⟩], invoices := [], payments := [] }

/-- The C9 counterexample request: due one hour before the call time 1000
(time measured in days). -/
def cexReqC9 : CreateInvoiceRequest :=
  { reference := "", currency := "KES", taxRate := 0, discount := 0,
    dueDate := some (1000 - 1/24), notes := "", terms := "",
    items := [⟨"Svc", 1, 100, ""⟩] }

/-- C9 counterexample: the due date lies one hour in the past at call time
1000, yet creation succeeds — a draft invoice is returned and persisted into
the store — because the code only rejects due dates older than now − 1 day. -/
theorem create_accepts_recent_past_due_date :
    cexReqC9.dueDate = some (1000 - 1/24) ∧ (1000 - 1/24 : ℚ) < 1000 ∧
    ((createInvoice cexStC9 "u1" "c1" cexReqC9 1000 (fun _ => "x")).toOption.map
      (fun r => r.2.status)) = some InvoiceStatus.draft ∧
    ((createInvoice cexStC9 "u1" "c1" cexReqC9 1000 (fun _ => "x")).toOption.map
      (fun r => r.1.invoices.length)) = some 1 := by
  refine ⟨rfl, by norm_num, ?_, ?_⟩ <;>
  · simp [createInvoice, cexStC9, cexReqC9, validateCreateRequest, trimSpace, isSpaceChar,
      List.find?, buildCreateItems, validCurrencies, Except.toOption, toUpperStr,
      List.isEmpty, round2]
    try norm_num
    try exact ⟨_, _, ⟨rfl, rfl⟩, rfl⟩

/-- Witness for C9's amended theorem: due date 998, call time 1000. -/
theorem create_rejects_due_date_over_a_day_old_witness :
    createInvoice cexStC9 "u1" "c1" { cexReqC9 with dueDate := some 998 } 1000
      (fun _ => "x") = .error (.validationMsg "due date cannot be in the past") :=
  create_rejects_due_date_over_a_day_old cexStC9 "u1" "c1"
    { cexReqC9 with dueDate := some 998 } 1000 (fun _ => "x") 998
    (by simp [trimSpace, isSpaceChar])
    (by simp [trimSpace, isSpaceChar])
    rfl
    (by norm_num)

end InvoiceFast
